import Mathlib

/-!
GNSS navigation core: ephemeris store and least-squares solver

A shallow embedding of `constants.h`, `pos_cal_1.c`, `pos_cal_2.c` and
`choose_ephemeris.c`.

* `double` values are rationals: every operation is exact. The orbit model,
  which calls `sqrt`, `sin`, `cos` and `atan2`, is written over any field `K`
  and takes those four functions as given; the stored parameters enter it
  through the embedding of the rationals in `K`.
* A C array `T x[R][C]` is an `Arr2 T C`: a row-major sequence of cells, where
  `x[i][j]` is cell number `i*C + j`, as the C object layout has it.
* `exit(2)` is an `Except` error; loops are folds over the index list they
  visit, or recursions on a counter.
-/

deriving instance DecidableEq for Except

namespace GNSS

/-! ## constants.h -/

/-- Upper limit on the number of observed satellites. -/
def MAX_N : Nat := 16
/-- Maximum number of unknowns. -/
def MAX_M : Nat := 4
/-- Upper limit on satellite numbers. -/
def MAX_PRN : Nat := 32
/-- Seconds in a week, `3600L*24L*7L`. -/
def SECONDS_WEEK : Int := 3600 * 24 * 7

/-- Time stamp: week number and seconds elapsed since the start of the week. -/
structure wtime where
  week : Int
  sec : ℚ

/-! ## Row-major two-dimensional arrays -/

/-- Storage of a C array declared with `cols` columns. -/
structure Arr2 (α : Type) (cols : Nat) where
  cell : Nat → α

namespace Arr2

variable {α : Type} {c : Nat}

/-- Read `x[i][j]`. -/
def get (x : Arr2 α c) (i j : Nat) : α := x.cell (i * c + j)

/-- Store `x[i][j] = v`. -/
def set (x : Arr2 α c) (i j : Nat) (v : α) : Arr2 α c :=
  ⟨fun k => if k = i * c + j then v else x.cell k⟩

/-- Build an array from its entries, for indices inside the declared columns. -/
def ofFn (f : Nat → Nat → α) : Arr2 α c :=
  ⟨fun k => f (k / c) (k % c)⟩

end Arr2

/-! ## pos_cal_1.c: matrix inversion and least squares -/

/-- Ways in which a solve attempt ends without a result. `singular` is the
`exit(2)` of `inverse_matrix`; `outOfBounds` is a store past the end of the
local work matrix of `computer_solution`. -/
inductive SolveError where
  | singular
  | outOfBounds
  deriving DecidableEq, Repr

/-- Descending index list `hi-1, hi-2, ..., lo` of `for (j = hi-1; j >= lo; j--)`. -/
def downFrom (hi lo : Nat) : List Nat := (List.range' lo (hi - lo)).reverse

/-- First loop nest of `inverse_matrix`: `b = [a | I]`. The local `b` starts
out as zeros here; every cell read later is written by this loop first. -/
def augment (a : Arr2 ℚ MAX_M) (m : Nat) : Arr2 ℚ (MAX_M + MAX_M) :=
  (List.range m).foldl (fun b i =>
    (List.range m).foldl (fun b j =>
      (b.set i j (a.get i j)).set i (j + m) (if i = j then 1 else 0)) b) ⟨fun _ => 0⟩

/-- Loop `for (j = m+m-1; j >= i; j--) b[i][j] /= b[i][i];`. -/
def normalize_row (m i : Nat) (b : Arr2 ℚ (MAX_M + MAX_M)) : Arr2 ℚ (MAX_M + MAX_M) :=
  (downFrom (m + m) i).foldl (fun b j => b.set i j (b.get i j / b.get i i)) b

/-- Loop over `k` with `if (k != i)` and
`for (j = m+m-1; j >= i; j--) b[k][j] -= b[k][i] * b[i][j];`. -/
def eliminate_column (m i : Nat) (b : Arr2 ℚ (MAX_M + MAX_M)) : Arr2 ℚ (MAX_M + MAX_M) :=
  (List.range m).foldl (fun b k =>
    if k ≠ i then
      (downFrom (m + m) i).foldl (fun b j => b.set k j (b.get k j - b.get k i * b.get i j)) b
    else b) b

/-- Loop nest `for (i=0; i<m; i++) for (j=0; j<m; j++) a[i][j] = b[i][j+m];`.
It runs on the loop variable `i` of the enclosing loop and leaves `i = m`. -/
def copy_back (m : Nat) (a : Arr2 ℚ MAX_M) (b : Arr2 ℚ (MAX_M + MAX_M)) : Arr2 ℚ MAX_M :=
  (List.range m).foldl (fun a i =>
    (List.range m).foldl (fun a j => a.set i j (b.get i (j + m))) a) a

/-- The elimination loop `for (i = 0; i < m; i++) { ... }` of `inverse_matrix`,
entered with loop variable `i`. The copy-back nest sits inside the body and
shares `i`, so the body ends with `i = m` and the increment makes it `m + 1`.
The first argument bounds the number of passes. -/
def inverse_matrix_loop (m : Nat) :
    Nat → Nat → Arr2 ℚ MAX_M → Arr2 ℚ (MAX_M + MAX_M) → Except SolveError (Arr2 ℚ MAX_M)
  | 0, _, a, _ => .ok a
  | fuel + 1, i, a, b =>
    if i < m then
      if |b.get i i| ≤ 1 / 10 ^ 10 then .error .singular
      else
        let b1 := normalize_row m i b
        let b2 := eliminate_column m i b1
        let a1 := copy_back m a b2
        inverse_matrix_loop m fuel (m + 1) a1 b2
    else .ok a

/-- Function `inverse_matrix(a, m)`: the array left in `a`, or the singular exit.
The loop variable grows on every pass, so `m + 1` passes are never used up. -/
def inverse_matrix (a : Arr2 ℚ MAX_M) (m : Nat) : Except SolveError (Arr2 ℚ MAX_M) :=
  inverse_matrix_loop m (m + 1) 0 a (augment a m)

/-- Weight of equation `k`: `if (wgt==NULL) w=1.0; else w = wgt[k];`. -/
def weight (wgt : Option (Nat → ℚ)) (k : Nat) : ℚ :=
  match wgt with
  | none => 1
  | some w => w k

/-- First loop nest of `computer_solution`: `cov = Gt W G`. -/
def normal_matrix (G : Arr2 ℚ MAX_M) (wgt : Option (Nat → ℚ)) (cov : Arr2 ℚ MAX_M)
    (n m : Nat) : Arr2 ℚ MAX_M :=
  (List.range m).foldl (fun cov i =>
    (List.range m).foldl (fun cov j =>
      (List.range n).foldl (fun cov k =>
        cov.set i j (cov.get i j + G.get k i * G.get k j * weight wgt k)) (cov.set i j 0)) cov) cov

/-- Third loop nest of `computer_solution`: `a[i][j] = sum_k cov[i][k]*G[j][k]*w_j`
for `i < m`, `j < n`, on the local `double a[MAX_M][MAX_M]` (zeros at entry here;
each cell read by the last nest is written by this one first). -/
def times_Gt (G : Arr2 ℚ MAX_M) (wgt : Option (Nat → ℚ)) (cov : Arr2 ℚ MAX_M)
    (n m : Nat) : Arr2 ℚ MAX_M :=
  (List.range m).foldl (fun a i =>
    (List.range n).foldl (fun a j =>
      (List.range m).foldl (fun a k =>
        a.set i j (a.get i j + cov.get i k * G.get j k * weight wgt j)) (a.set i j 0)) a) ⟨fun _ => 0⟩

/-- Last loop nest of `computer_solution`: `dx[i] = sum_j a[i][j]*dr[j]`. -/
def times_dr (a : Arr2 ℚ MAX_M) (dr dx : Nat → ℚ) (n m : Nat) : Nat → ℚ :=
  (List.range m).foldl (fun dx i =>
    (List.range n).foldl (fun dx j =>
      Function.update dx i (dx i + a.get i j * dr j)) (Function.update dx i 0)) dx

/-- Function `computer_solution(G, dr, wgt, dx, cov, n, m)`: the contents of
`dx` and `cov` at return. The work matrix `a` has `MAX_M * MAX_M` cells and
its last cell written is `a[m-1][n-1]`; when that lies past the storage the
run is reported as `outOfBounds`. -/
def computer_solution (G : Arr2 ℚ MAX_M) (dr : Nat → ℚ) (wgt : Option (Nat → ℚ))
    (dx : Nat → ℚ) (cov : Arr2 ℚ MAX_M) (n m : Nat) :
    Except SolveError ((Nat → ℚ) × Arr2 ℚ MAX_M) :=
  match inverse_matrix (normal_matrix G wgt cov n m) m with
  | .error e => .error e
  | .ok cov1 =>
    if 0 < m ∧ 0 < n ∧ MAX_M * MAX_M ≤ (m - 1) * MAX_M + (n - 1) then .error .outOfBounds
    else .ok (times_dr (times_Gt G wgt cov1 n m) dr dx n m, cov1)

/-! ## pos_cal_2.c: the ephemeris store -/

/-- Number of lines of one navigation record. -/
def RINEX_NAV_LINES : Nat := 8
/-- Number of fields on a line of a navigation record. -/
def RINEX_NAV_FIELDS_LINE : Nat := 4
/-- Maximum number of ephemerides kept per satellite. -/
def MAX_EPHMS : Nat := 20
/-- Validity period of an ephemeris in hours (`#define EPHMERIS_EXPIRE 2.0`,
used by `set_ephemeris` under the spelling `EPHEMERIS_EXPIRE`). -/
def EPHEMERIS_EXPIRE : ℚ := 2

/-- One stored ephemeris: week number and the fields of the record. -/
structure ephm_info where
  week : Int
  data : Nat → ℚ

/-! Parameter numbers, `enum ephm_para`. -/

def EPHM_TOC : Nat := 0
def EPHM_AFO : Nat := 1
def EPHM_AF1 : Nat := 2
def EPHM_AF2 : Nat := 3
def EPHM_IODE : Nat := 4
def EPHM_Crs : Nat := 5
def EPHM_d_n : Nat := 6
def EPHM_MO : Nat := 7
def EPHM_Cuc : Nat := 8
def EPHM_e : Nat := 9
def EPHM_Cus : Nat := 10
def EPHM_sqrtA : Nat := 11
def EPHM_TOE : Nat := 12
def EPHM_Cic : Nat := 13
def EPHM_OMEGAO : Nat := 14
def EPHM_Cis : Nat := 15
def EPHM_i0 : Nat := 16
def EPHM_CrC : Nat := 17
def EPHM_omega : Nat := 18
def EPHM_dOmega : Nat := 19
def EPHM_di : Nat := 20
def EPHM_CAonL2 : Nat := 21
def EPHM_WEEK : Nat := 22
def EPHM_L2P : Nat := 23
def EPHM_acc : Nat := 24
def EPHM_health : Nat := 25
def EPHM_TGD : Nat := 26
def EPHM_IODC : Nat := 27
def EPHM_TOT : Nat := 28
def EPHM_FIT : Nat := 29

/-- The file-scope state: `ephm_buf[MAX_PRN][MAX_EPHMS]`, `ephm_count[MAX_PRN]`,
`current_ephm[MAX_PRN]` and `current_week`. -/
structure Store where
  ephm_buf : Arr2 ephm_info MAX_EPHMS
  ephm_count : Nat → Nat
  current_ephm : Nat → Int
  current_week : Int

/-- An all-zero ephemeris slot. -/
def zero_info : ephm_info := ⟨0, fun _ => 0⟩

/-- State at program start: static storage is zero, `current_week = -1`. -/
def init_store : Store :=
  { ephm_buf := ⟨fun _ => zero_info⟩
    ephm_count := fun _ => 0
    current_ephm := fun _ => 0
    current_week := -1 }

/-- Row of satellite `prn` in the per-satellite arrays: `prn-1`. -/
def row (prn : Int) : Nat := (prn - 1).toNat

/-- Conversion of a `double` to `int`: truncation towards zero. -/
def c_trunc (q : ℚ) : Int := Int.tdiv q.num q.den

/-- One navigation record as read from the file: satellite number and the
ephemeris assembled in `info` (week of the calendar epoch, 32 fields). -/
structure Record where
  prn : Int
  info : ephm_info

/-- How the body of the record loop ends: go on with the next record, or
leave the loop (`goto NOERROR`). -/
inductive Flow where
  | next
  | stop
  deriving DecidableEq, Repr

/-- Week alignment: `t = (info.week-info.data[EPHM_WEEK])*SECONDS_WEEK;
info.week = info.data[EPHM_WEEK]; info.data[EPHM_TOE] += t;`. -/
def align_week (info : ephm_info) : ephm_info :=
  let t : ℚ := ((info.week : ℚ) - info.data EPHM_WEEK) * (SECONDS_WEEK : ℚ)
  { week := c_trunc (info.data EPHM_WEEK)
    data := Function.update info.data EPHM_TOE (info.data EPHM_TOE + t) }

/-- Duplicate scan `for (i=0; i<ephm_count[prn-1]; i++)`: the index at which
the loop breaks. An entry is passed over when its week equals the week of
`info` (`continue`), otherwise the loop breaks there when the IODC fields agree. -/
def find_duplicate (s : Store) (p : Nat) (info : ephm_info) : Option Nat :=
  (List.range (s.ephm_count p)).find? (fun i =>
    decide (¬ (s.ephm_buf.get p i).week = info.week) &&
    decide ((s.ephm_buf.get p i).data EPHM_IODC = info.data EPHM_IODC))

/-- Search loop for the insert position: value of `i` after
`for (i=0; i<ephm_count[prn-1]; i++) { t = ...; if (info.data[EPHM_TOT] < t) break; }`. -/
def insert_position (s : Store) (p : Nat) (info : ephm_info) : Nat :=
  ((List.range (s.ephm_count p)).find? (fun i =>
    decide (info.data EPHM_TOT <
      (((s.ephm_buf.get p i).week - info.week) * SECONDS_WEEK : Int) +
        (s.ephm_buf.get p i).data EPHM_TOT))).getD (s.ephm_count p)

/-- Shift loop `for (j=ephm_count[prn-1]; j>i; j--) ephm_buf[prn-1][j] = ephm_buf[prn-1][j-1];`. -/
def shift_up (buf : Arr2 ephm_info MAX_EPHMS) (p count i : Nat) : Arr2 ephm_info MAX_EPHMS :=
  (downFrom (count + 1) (i + 1)).foldl (fun buf j => buf.set p j (buf.get p (j - 1))) buf

/-- Body of the record loop of `read_RINEX_NAV` after the fields of one record
have been read (from `if (prn<1) continue;` to `ephm_count[prn-1]++`). -/
def ingest_record (s : Store) (r : Record) : Store × Flow :=
  if r.prn < 1 then (s, .next)
  else
    let info := align_week r.info
    let p := row r.prn
    let s1 : Store := { s with current_week := info.week }
    match find_duplicate s1 p info with
    | some i =>
      if info.data EPHM_TOT < (s1.ephm_buf.get p i).data EPHM_TOT then
        ({ s1 with ephm_buf := s1.ephm_buf.set p i info }, .next)
      else (s1, .next)
    | none =>
      if MAX_EPHMS ≤ s1.ephm_count p then (s1, .stop)
      else
        let i := insert_position s1 p info
        let buf := (shift_up s1.ephm_buf p (s1.ephm_count p) i).set p i info
        ({ s1 with ephm_buf := buf
                   ephm_count := Function.update s1.ephm_count p (s1.ephm_count p + 1) }, .next)

/-- The record loop `while(read_line(fp)) { ... }` over the records of the file. -/
def read_records (s : Store) : List Record → Store × Flow
  | [] => (s, .next)
  | r :: rs =>
    match ingest_record s r with
    | (s1, .next) => read_records s1 rs
    | (s1, .stop) => (s1, .stop)

/-- Function `read_RINEX_NAV`, on the store: the initialisation
`if (current_week < 0)` clears every count, then the records are read. The
ionosphere and leap-second header values are not part of this state. -/
def read_RINEX_NAV (s : Store) (rs : List Record) : Store :=
  (read_records (if s.current_week < 0 then { s with ephm_count := fun _ => 0 } else s) rs).1

/-! ## choose_ephemeris.c: selection and access -/

/-- Error of `get_ephemeris`: `Missing ephemeris`, `exit(2)`. -/
inductive StoreError where
  | missingEphemeris
  deriving DecidableEq, Repr

/-- Week-adjusted clock reference time of a slot:
`t0 = (week - current_week) * SECONDS_WEEK; t = data[EPHM_TOC] + t0`. -/
def adjusted_toc (s : Store) (e : ephm_info) : ℚ :=
  e.data EPHM_TOC + (((e.week - s.current_week) * SECONDS_WEEK : Int) : ℚ)

/-- Test of `if (wt.sec < t - EPHEMERIS_EXPIRE*3600.0 + 0.1 < wt.sec) continue;`.
C reads `a < b < c` as `(a < b) < c`: the first comparison gives 1 or 0, and
that number is compared with `wt.sec`. -/
def expiry_test (sec t : ℚ) : Bool :=
  decide ((if sec < t - EPHEMERIS_EXPIRE * 3600 + 1 / 10 then (1 : ℚ) else 0) < sec)

/-- Loop `for (i = ...; i>=0; i--)` of `set_ephemeris` entered with `i = k - 1`:
the value of `i` when the loop is left (`-1` when it runs out). -/
def scan_ephemeris (s : Store) (p : Nat) (sec : ℚ) (iode : Int) : Nat → Int
  | 0 => -1
  | i + 1 =>
    let e := s.ephm_buf.get p i
    let t := adjusted_toc s e
    if expiry_test sec t then scan_ephemeris s p sec iode i
    else if 0 ≤ iode then
      if e.data EPHM_IODE = (iode : ℚ) then (i : Int) else scan_ephemeris s p sec iode i
    else if t < sec + 1 / 10 then (i : Int) else scan_ephemeris s p sec iode i

/-- Function `set_ephemeris(prn, wt, iode)`: the loop starts at
`i = ephm_count[prn-1]`, the index found goes to `current_ephm[prn-1]`, and
the result is `i >= 0`. -/
def set_ephemeris (s : Store) (prn : Int) (wt : wtime) (iode : Int) : Store × Bool :=
  let i := scan_ephemeris s (row prn) wt.sec iode (s.ephm_count (row prn) + 1)
  ({ s with current_ephm := Function.update s.current_ephm (row prn) i }, decide (0 ≤ i))

/-- Function `get_ephemeris(prn, para)`: exits when
`ephm_count[prn-1] < 1 || current_ephm[prn-1]`, that is when the count is zero
or the current index is not zero. -/
def get_ephemeris (s : Store) (prn : Int) (para : Nat) : Except StoreError ℚ :=
  if s.ephm_count (row prn) < 1 ∨ s.current_ephm (row prn) ≠ 0 then .error .missingEphemeris
  else .ok ((s.ephm_buf.get (row prn) (s.current_ephm (row prn)).toNat).data para)

/-! ## Quantities the properties are stated with -/

/-- Product `M * R` of the leading `m x m` blocks, entry `(i, j)`. -/
def mat_mul (M R : Arr2 ℚ MAX_M) (m i j : Nat) : ℚ :=
  ((List.range m).map (fun k => M.get i k * R.get k j)).sum

/-- Diagonal array with diagonal entries 1, 2, 3, 4: its leading block of
dimension 2 is `[[1, 0], [0, 2]]` and its first row is `(1, 0, 0, 0)`. -/
def diag12 : Arr2 ℚ MAX_M := Arr2.ofFn (fun i j => if i = j then (i : ℚ) + 1 else 0)

/-- A record of satellite `prn` whose calendar week and WEEK field are both
`week`, with the given TOC, IODE, IODC and TOT; every other field is zero. -/
def mk_record (prn week : Int) (toc iode iodc tot : ℚ) : Record :=
  { prn := prn
    info :=
      { week := week
        data := fun k =>
          if k = EPHM_TOC then toc
          else if k = EPHM_IODE then iode
          else if k = EPHM_WEEK then (week : ℚ)
          else if k = EPHM_IODC then iodc
          else if k = EPHM_TOT then tot
          else 0 } }

/-- Entry `(i, j)` of the normal matrix `Gt W G`. -/
def gram (G : Arr2 ℚ MAX_M) (wgt : Option (Nat → ℚ)) (n i j : Nat) : ℚ :=
  ((List.range n).map (fun k => G.get k i * weight wgt k * G.get k j)).sum

/-- Row `i` of the left side `(Gt W G) * dx` of the normal equations. -/
def normal_lhs (G : Arr2 ℚ MAX_M) (wgt : Option (Nat → ℚ)) (n m : Nat) (dx : Nat → ℚ)
    (i : Nat) : ℚ :=
  ((List.range m).map (fun j => gram G wgt n i j * dx j)).sum

/-- Row `i` of the right side `Gt W dr` of the normal equations. -/
def normal_rhs (G : Arr2 ℚ MAX_M) (wgt : Option (Nat → ℚ)) (n : Nat) (dr : Nat → ℚ)
    (i : Nat) : ℚ :=
  ((List.range n).map (fun k => G.get k i * weight wgt k * dr k)).sum

/-- Residual vector `(0, 1, 0, ...)`. -/
def unit1 : Nat → ℚ := fun k => if k = 1 then 1 else 0

/-- Twenty-one records of satellite 1, all of week 2000, with distinct IODC and
transmission times 0, 1, ..., 20. -/
def sat1_records : List Record :=
  (List.range 21).map (fun k => mk_record 1 2000 (k : ℚ) (k : ℚ) (k : ℚ) (k : ℚ))

/-! ## choose_ephemeris.c: clock and orbit model -/

/-- Earth gravitational constant, `#define MUe 3.986005e14`. -/
def MUe : ℚ := 398600500000000
/-- Earth rotation rate, `#define dOMEGAe 7.2921151467e-5`. -/
def dOMEGAe : ℚ := 72921151467 / 1000000000000000

/-- Cartesian coordinates, `posxyz`. -/
structure posxyz (K : Type) where
  x : K
  y : K
  z : K

/-- The functions of `math.h` used by `satellite_position`. They are not part
of the repository and are taken as they come. -/
structure MathFns (K : Type) where
  sqrt : K → K
  sin : K → K
  cos : K → K
  atan2 : K → K → K

/-- The slot `ephm_buf[prn-1][current_ephm[prn-1]]` that `get_ephemeris` reads. -/
def selected (s : Store) (prn : Int) : ephm_info :=
  s.ephm_buf.get (row prn) (s.current_ephm (row prn)).toNat

/-- The guard of `get_ephemeris` lets the call through. -/
def usable (s : Store) (prn : Int) : Prop :=
  ¬ (s.ephm_count (row prn) < 1 ∨ s.current_ephm (row prn) ≠ 0)

instance (s : Store) (prn : Int) : Decidable (usable s prn) := by
  unfold usable
  infer_instance

/-- Function `satellite_clock(prn, wt)`. The fields are fetched by
`get_ephemeris` in the order of the source (`EPHM_AF0` of the source is the
enumerator `EPHM_AFO`). -/
def satellite_clock (s : Store) (prn : Int) (wt : wtime) : Except StoreError ℚ := do
  let week ← get_ephemeris s prn EPHM_WEEK
  let toc ← get_ephemeris s prn EPHM_TOC
  let tk0 : ℚ := ((wt.week : ℚ) - week) * (SECONDS_WEEK : ℚ) + wt.sec - toc
  let tk := tk0
  let tr : ℚ := 0
  let af0 ← get_ephemeris s prn EPHM_AFO
  let af1 ← get_ephemeris s prn EPHM_AF1
  let af2 ← get_ephemeris s prn EPHM_AF2
  let dt := af0 + af1 * tk + af2 * tk * tk
  let tgd ← get_ephemeris s prn EPHM_TGD
  pure (dt + tr - tgd)

section orbit

variable {K : Type} [Field K]

/-- Lines `sqrtA = sqrt(get_ephemeris(prn, EPHM_sqrtA));` and
`n = sqrt(MUe)/sqrtA/sqrtA/sqrtA+get_ephemeris(prn, EPHM_d_n);`: the mean
motion, from the stored `EPHM_sqrtA` field and the `EPHM_d_n` field. -/
def mean_motion (sqrt : K → K) (sqrtA_field d_n : K) : K :=
  let sqrtA := sqrt sqrtA_field
  sqrt (MUe : K) / sqrtA / sqrtA / sqrtA + d_n

/-- Loop `Ek = Mk; for(i=0; i<10; i++) Ek = Mk + e * sin(Ek);`. -/
def kepler (sin : K → K) (Mk e : K) : K :=
  (List.range 10).foldl (fun Ek _ => Mk + e * sin Ek) Mk

/-- The local variables of `satellite_position` that the result is built from. -/
structure OrbitVars (K : Type) where
  tk : K
  n : K
  Mk : K
  Ek : K
  rk : K
  uk : K
  ik : K
  xk : K
  yk : K
  Omegak : K
  pos : posxyz K

/-- Body of `satellite_position` on the fetched parameters `g para`
(the value of `get_ephemeris(prn, para)`), for the time `(week, sec)`.
`EPHM_M0` and `EPHM_Crc` of the source are the enumerators `EPHM_MO` and
`EPHM_CrC`. -/
def orbit (F : MathFns K) (g : Nat → K) (week sec : K) : OrbitVars K :=
  let tk0 := (week - g EPHM_WEEK) * ((SECONDS_WEEK : ℚ) : K) + sec - g EPHM_TOE
  let tk := tk0
  let sqrtA := F.sqrt (g EPHM_sqrtA)
  let e := g EPHM_e
  let n := mean_motion F.sqrt (g EPHM_sqrtA) (g EPHM_d_n)
  let Mk := g EPHM_MO + n * tk
  let Ek := kepler F.sin Mk e
  let rk0 := sqrtA * F.sqrt (1 - e * F.cos Ek)
  let vk := F.atan2 (F.sqrt (1 - e * e) * F.sin Ek) (F.cos Ek - e)
  let pk := vk + g EPHM_omega
  let d_uk := g EPHM_Cuc * F.cos (2 * pk) + g EPHM_Cus * F.sin (2 * pk)
  let d_rk := g EPHM_CrC * F.cos (2 * pk) + g EPHM_Crs * F.sin (2 * pk)
  let d_ik := g EPHM_Cic * F.cos (2 * pk) + g EPHM_Cis * F.sin (2 * pk)
  let uk := pk + d_uk
  let rk := rk0 + d_rk
  let ik := g EPHM_i0 + d_ik + g EPHM_di * tk
  let xk := rk * F.cos uk
  let yk := rk * F.sin uk
  let Omegak := g EPHM_OMEGAO + (g EPHM_dOmega - (dOMEGAe : K)) * tk0
    - (dOMEGAe : K) * g EPHM_TOE
  { tk := tk, n := n, Mk := Mk, Ek := Ek, rk := rk, uk := uk, ik := ik, xk := xk, yk := yk
    Omegak := Omegak
    pos :=
      { x := xk * F.cos Omegak - yk * F.cos ik * F.sin Omegak
        y := xk * F.sin Omegak + yk * F.cos ik * F.cos Omegak
        z := yk * F.sin ik } }

/-- Function `satellite_position(prn, wt)`: every parameter comes from
`get_ephemeris`, whose guard does not depend on the parameter number, so the
first call decides whether the function exits; after it the body runs on the
fields of the selected set. -/
def satellite_position (F : MathFns K) (s : Store) (prn : Int) (wt : wtime) :
    Except StoreError (posxyz K) :=
  match get_ephemeris s prn EPHM_WEEK with
  | .error err => .error err
  | .ok _ =>
    .ok (orbit F (fun para => (((selected s prn).data para : ℚ) : K))
      ((wt.week : ℚ) : K) ((wt.sec : ℚ) : K)).pos

end orbit

/-! ## Quantities for the ordering and insertion properties -/

/-- Transmission time of a stored set in absolute seconds: `week*604800 + tot`. -/
def abs_tot (e : ephm_info) : ℚ :=
  ((e.week * SECONDS_WEEK : Int) : ℚ) + e.data EPHM_TOT

/-- The sets of row `p` at indices `0..count-1` are in non-decreasing order of
absolute transmission time. -/
def sorted_row (s : Store) (p : Nat) : Prop :=
  ∀ j, j + 1 < s.ephm_count p →
    abs_tot (s.ephm_buf.get p j) ≤ abs_tot (s.ephm_buf.get p (j + 1))

/-- The body of the record loop overwrites a stored duplicate with the record
(`ephm_buf[prn-1][i] = info;` in the duplicate scan). -/
def replaces (s : Store) (r : Record) : Bool :=
  decide (1 ≤ r.prn) &&
    match find_duplicate s (row r.prn) (align_week r.info) with
    | some i =>
      decide ((align_week r.info).data EPHM_TOT < (s.ephm_buf.get (row r.prn) i).data EPHM_TOT)
    | none => false

/-- Store on which the record loop of `read_RINEX_NAV` starts: the counts are
cleared when `current_week < 0`. -/
def entry_state (s : Store) : Store :=
  if s.current_week < 0 then { s with ephm_count := fun _ => 0 } else s

/-- No record of the list overwrites a stored duplicate when the list is read
from store `s`. -/
def never_replaces : Store → List Record → Bool
  | _, [] => true
  | s, r :: rs =>
    !replaces s r &&
      match ingest_record s r with
      | (s1, .next) => never_replaces s1 rs
      | (_, .stop) => true

/-- Transmission time of the stored set `e` counted from the week of `info`:
`t = (ephm_buf[prn-1][i].week-info.week)*SECONDS_WEEK + ephm_buf[prn-1][i].data[EPHM_TOT]`. -/
def adjusted_tot (info e : ephm_info) : ℚ :=
  (((e.week - info.week) * SECONDS_WEEK : Int) : ℚ) + e.data EPHM_TOT

/-- A record with every field given: calendar week `week0`, WEEK field `week`. -/
def mk_record_full (prn week0 : Int) (week toc toe iodc tot : ℚ) : Record :=
  { prn := prn
    info :=
      { week := week0
        data := fun k =>
          if k = EPHM_TOC then toc
          else if k = EPHM_TOE then toe
          else if k = EPHM_WEEK then week
          else if k = EPHM_IODC then iodc
          else if k = EPHM_TOT then tot
          else 0 } }

/-- Design matrix whose row `k` is `(1, k, k^2, k^3)`. -/
def poly_design : Arr2 ℚ MAX_M := Arr2.ofFn (fun k j => (k : ℚ) ^ j)

/-- Residual vector `(0, 0, 0, 0, 1, 0, ...)`. -/
def unit4 : Nat → ℚ := fun k => if k = 4 then 1 else 0

/-- Row `i` of `cov * Gt * W * dr`, the value `dx[i]` that the last two loop
nests of `computer_solution` are written to compute. -/
def cov_Gt_dr (cov G : Arr2 ℚ MAX_M) (wgt : Option (Nat → ℚ)) (dr : Nat → ℚ) (n m i : Nat) : ℚ :=
  ((List.range n).map (fun j =>
    ((List.range m).map (fun k => cov.get i k * G.get j k * weight wgt j)).sum * dr j)).sum

/-! ## Lemmas on the record loop -/

theorem ingest_record_count_le (s : Store) (r : Record)
    (h : ∀ p, s.ephm_count p ≤ MAX_EPHMS) (p : Nat) :
    (ingest_record s r).1.ephm_count p ≤ MAX_EPHMS := by
  unfold ingest_record
  split
  · exact h p
  · dsimp only
    split
    · split <;> exact h p
    · split
      · exact h p
      · rename_i hfull
        dsimp only
        by_cases hp : p = row r.prn
        · subst hp
          rw [Function.update_same]
          omega
        · rw [Function.update_noteq hp]
          exact h p

theorem read_records_count_le (rs : List Record) :
    ∀ s : Store, (∀ p, s.ephm_count p ≤ MAX_EPHMS) →
      ∀ p, (read_records s rs).1.ephm_count p ≤ MAX_EPHMS := by
  induction rs with
  | nil => intro s h p; exact h p
  | cons r rs ih =>
    intro s h p
    have h1 := ingest_record_count_le s r h
    unfold read_records
    cases hr : ingest_record s r with
    | mk s1 fl =>
      rw [hr] at h1
      cases fl with
      | next => exact ih s1 h1 p
      | stop => exact h1 p

theorem ingest_record_full (s : Store) (r : Record) (hprn : 1 ≤ r.prn)
    (hnew : find_duplicate s (row r.prn) (align_week r.info) = none)
    (hfull : MAX_EPHMS ≤ s.ephm_count (row r.prn)) :
    ingest_record s r = ({ s with current_week := (align_week r.info).week }, Flow.stop) := by
  have hd : find_duplicate { s with current_week := (align_week r.info).week } (row r.prn)
      (align_week r.info) = none := hnew
  unfold ingest_record
  rw [if_neg (by omega)]
  dsimp only
  rw [hd]
  dsimp only
  rw [if_pos hfull]

theorem read_records_append_stop (pre : List Record) :
    ∀ (s s1 s2 : Store) (r : Record) (post : List Record),
      read_records s pre = (s1, Flow.next) → ingest_record s1 r = (s2, Flow.stop) →
      read_records s (pre ++ r :: post) = (s2, Flow.stop) := by
  induction pre with
  | nil =>
    intro s s1 s2 r post hpre hr
    simp only [read_records, Prod.mk.injEq, and_true] at hpre
    subst hpre
    simp only [List.nil_append, read_records, hr]
  | cons q pre ih =>
    intro s s1 s2 r post hpre hr
    simp only [List.cons_append, read_records] at hpre ⊢
    cases hq : ingest_record s q with
    | mk t fl =>
      rw [hq] at hpre
      cases fl with
      | next => exact ih t s1 s2 r post hpre hr
      | stop => simp at hpre

/-! ## Lemmas on the selection loop -/

theorem scan_ephemeris_found (s : Store) (p : Nat) (sec : ℚ) (iode : Int) (hiode : iode < 0) :
    ∀ k : Nat, 0 ≤ scan_ephemeris s p sec iode k →
      0 ≤ scan_ephemeris s p sec iode k ∧ scan_ephemeris s p sec iode k < k ∧
      adjusted_toc s (s.ephm_buf.get p (scan_ephemeris s p sec iode k).toNat) < sec + 1 / 10 := by
  intro k
  induction k with
  | zero => intro h; simp [scan_ephemeris] at h
  | succ i ih =>
    intro h
    unfold scan_ephemeris at h ⊢
    dsimp only at h ⊢
    split at h
    · rename_i hexp
      rw [if_pos hexp]
      obtain ⟨h1, h2, h3⟩ := ih h
      exact ⟨h1, by omega, h3⟩
    · rename_i hexp
      rw [if_neg hexp, if_neg (by omega)]
      rw [if_neg (by omega)] at h
      split at h
      · rename_i hlt
        rw [if_pos hlt]
        refine ⟨by omega, by omega, ?_⟩
        simpa using hlt
      · rename_i hlt
        rw [if_neg hlt]
        obtain ⟨h1, h2, h3⟩ := ih h
        exact ⟨h1, by omega, h3⟩

/-! ## The properties -/

/-- C1: on `M = [[1, 0], [0, 2]]` with `m = 2`, `inverse_matrix` reports no
singular matrix and leaves `R = [[1, 0], [0, 1]]` in place of `M`, so that
entry `(1, 1)` of `M * R` is 2 and not 1: only the first pivot is eliminated. -/
theorem inverse_matrix_diag12 :
    (inverse_matrix diag12 2).map
        (fun R => (R.get 0 0, R.get 0 1, R.get 1 0, R.get 1 1, mat_mul diag12 R 2 1 1))
      = .ok (1, 0, 0, 1, 2) := by
  decide!

/-- C2: with `n = m = 2`, `G = [[1, 0], [0, 2]]`, `dr = (0, 1)` and no weights,
`computer_solution` completes with `dx = (0, 2)`; row 1 of `(Gt G) * dx` is 8
while row 1 of `Gt dr` is 2, so `dx` does not solve the normal equations. -/
theorem computer_solution_diag12 :
    (computer_solution diag12 unit1 none (fun _ => 0) ⟨fun _ => 0⟩ 2 2).map
        (fun out => (out.1 0, out.1 1, normal_lhs diag12 none 2 2 out.1 1,
          normal_rhs diag12 none 2 unit1 1))
      = .ok (0, 2, 8, 2) := by
  decide!

/-- C3: with `n = 1`, `m = 2` and the single row `G = [[1, 0]]`, the normal
matrix is `[[1, 0], [0, 0]]`, which is singular, yet `computer_solution` does
not fail: it returns `dx` and the covariance `[[1, 0], [0, 1]]`. -/
theorem computer_solution_rank_deficient :
    (gram diag12 none 1 0 0, gram diag12 none 1 0 1, gram diag12 none 1 1 0,
        gram diag12 none 1 1 1) = (1, 0, 0, 0) ∧
    (computer_solution diag12 unit1 none (fun _ => 0) ⟨fun _ => 0⟩ 1 2).map
        (fun out => (out.2.get 0 0, out.2.get 0 1, out.2.get 1 0, out.2.get 1 1))
      = .ok (1, 0, 0, 1) := by
  decide!

/-- C4: satellite 1 holds one set, of the process week, with `toc = 100`; at
query time 200 it passes the validity window and has `toc <= t`, yet
`set_ephemeris` without a wanted IODE returns false and records index `-1`. -/
theorem set_ephemeris_rejects_valid :
    (read_RINEX_NAV init_store [mk_record 1 2000 100 5 5 100]).ephm_count 0 = 1 ∧
    adjusted_toc (read_RINEX_NAV init_store [mk_record 1 2000 100 5 5 100])
        ((read_RINEX_NAV init_store [mk_record 1 2000 100 5 5 100]).ephm_buf.get 0 0) = 100 ∧
    (set_ephemeris (read_RINEX_NAV init_store [mk_record 1 2000 100 5 5 100]) 1
        ⟨2000, 200⟩ (-1)).2 = false ∧
    (set_ephemeris (read_RINEX_NAV init_store [mk_record 1 2000 100 5 5 100]) 1
        ⟨2000, 200⟩ (-1)).1.current_ephm 0 = -1 := by
  decide!

/-- C5: satellite 1 holds exactly one set, with `iode = 5` and `toc = 100`; at
query time 200 it passes the validity window, yet `set_ephemeris` with wanted
IODE 5 returns false and records index `-1`. -/
theorem set_ephemeris_rejects_wanted_iode :
    (read_RINEX_NAV init_store [mk_record 1 2000 100 5 5 100]).ephm_count 0 = 1 ∧
    ((read_RINEX_NAV init_store [mk_record 1 2000 100 5 5 100]).ephm_buf.get 0 0).data
        EPHM_IODE = 5 ∧
    (set_ephemeris (read_RINEX_NAV init_store [mk_record 1 2000 100 5 5 100]) 1
        ⟨2000, 200⟩ 5).2 = false ∧
    (set_ephemeris (read_RINEX_NAV init_store [mk_record 1 2000 100 5 5 100]) 1
        ⟨2000, 200⟩ 5).1.current_ephm 0 = -1 := by
  decide!

/-- C6: when `set_ephemeris` without a wanted IODE returns true, the
week-adjusted `toc` of the slot it recorded is at most
`wt.sec + EPHEMERIS_EXPIRE * 3600`. -/
theorem set_ephemeris_freshness (s : Store) (prn : Int) (wt : wtime) (iode : Int)
    (hiode : iode < 0) (hsel : (set_ephemeris s prn wt iode).2 = true) :
    adjusted_toc s (s.ephm_buf.get (row prn)
        ((set_ephemeris s prn wt iode).1.current_ephm (row prn)).toNat)
      ≤ wt.sec + EPHEMERIS_EXPIRE * 3600 := by
  unfold set_ephemeris at hsel ⊢
  dsimp only at hsel ⊢
  rw [Function.update_same]
  have h0 : 0 ≤ scan_ephemeris s (row prn) wt.sec iode (s.ephm_count (row prn) + 1) := by
    simpa using hsel
  obtain ⟨_, _, h3⟩ := scan_ephemeris_found s (row prn) wt.sec iode hiode _ h0
  have hE : EPHEMERIS_EXPIRE * 3600 = 7200 := by norm_num [EPHEMERIS_EXPIRE]
  rw [hE]
  linarith

/-- Witness of C6: after one record of week 2000 for satellite 1, a selection
at second 0 without a wanted IODE succeeds. -/
theorem set_ephemeris_freshness_witness :
    ((-1 : Int) < 0 ∧
      (set_ephemeris (read_RINEX_NAV init_store [mk_record 1 2000 0 5 5 0]) 1
        ⟨2000, 0⟩ (-1)).2 = true) ∧
    adjusted_toc (read_RINEX_NAV init_store [mk_record 1 2000 0 5 5 0])
        ((read_RINEX_NAV init_store [mk_record 1 2000 0 5 5 0]).ephm_buf.get (row 1)
          ((set_ephemeris (read_RINEX_NAV init_store [mk_record 1 2000 0 5 5 0]) 1
            ⟨2000, 0⟩ (-1)).1.current_ephm (row 1)).toNat)
      ≤ (⟨2000, 0⟩ : wtime).sec + EPHEMERIS_EXPIRE * 3600 :=
  ⟨⟨by decide, by decide!⟩,
    set_ephemeris_freshness (read_RINEX_NAV init_store [mk_record 1 2000 0 5 5 0]) 1
      ⟨2000, 0⟩ (-1) (by decide) (by decide!)⟩

/-- C7: satellite 1 holds two sets; `set_ephemeris` with wanted IODE 6 returns
true and records index 1 (the set with `iode = 6`, `toc = 7200`), and the
following `get_ephemeris` fails with the missing-ephemeris error instead of
returning a field of that set. -/
theorem get_ephemeris_fails_after_selection :
    (read_RINEX_NAV init_store
        [mk_record 1 2000 0 5 5 0, mk_record 1 2000 7200 6 6 7200]).ephm_count 0 = 2 ∧
    (set_ephemeris (read_RINEX_NAV init_store
        [mk_record 1 2000 0 5 5 0, mk_record 1 2000 7200 6 6 7200]) 1 ⟨2000, 0⟩ 6).2 = true ∧
    (set_ephemeris (read_RINEX_NAV init_store
        [mk_record 1 2000 0 5 5 0, mk_record 1 2000 7200 6 6 7200]) 1 ⟨2000, 0⟩ 6).1.current_ephm 0
      = 1 ∧
    get_ephemeris (set_ephemeris (read_RINEX_NAV init_store
        [mk_record 1 2000 0 5 5 0, mk_record 1 2000 7200 6 6 7200]) 1 ⟨2000, 0⟩ 6).1 1 EPHM_TOC
      = .error .missingEphemeris := by
  decide!

/-- C8: from the empty store, one record of satellite 1 (week 2000, IODC 5,
TOT 100) gives count 1, and a second record with the same satellite, week,
IODC and TOT gives count 2. -/
theorem ingest_same_record_twice :
    (ingest_record init_store (mk_record 1 2000 100 5 5 100)).1.ephm_count 0 = 1 ∧
    (ingest_record (ingest_record init_store (mk_record 1 2000 100 5 5 100)).1
        (mk_record 1 2000 100 5 5 100)).1.ephm_count 0 = 2 := by
  decide!

/-- C9: starting from the empty store, after any number of records every
satellite's count is at most `MAX_EPHMS`; and a record that matches no stored
duplicate, for a satellite whose count has reached `MAX_EPHMS`, leaves every
count and the whole buffer as they were. -/
theorem capacity_bound :
    (∀ (rs : List Record) (k p : Nat),
      (read_RINEX_NAV init_store (rs.take k)).ephm_count p ≤ MAX_EPHMS) ∧
    (∀ (s : Store) (r : Record), 1 ≤ r.prn →
      find_duplicate s (row r.prn) (align_week r.info) = none →
      MAX_EPHMS ≤ s.ephm_count (row r.prn) →
      (ingest_record s r).1.ephm_count = s.ephm_count ∧
      (ingest_record s r).1.ephm_buf = s.ephm_buf) := by
  constructor
  · intro rs k p
    unfold read_RINEX_NAV
    apply read_records_count_le
    intro q
    split <;> simp [init_store]
  · intro s r hprn hnew hfull
    rw [ingest_record_full s r hprn hnew hfull]
    exact ⟨rfl, rfl⟩

/-- Witness of C9: after the first twenty records of `sat1_records` satellite 1
is full, and the twenty-first record, which matches no stored duplicate,
changes neither the counts nor the buffer. -/
theorem capacity_bound_witness :
    (read_RINEX_NAV init_store (sat1_records.take 20)).ephm_count 0 ≤ MAX_EPHMS ∧
    ((1 : Int) ≤ (mk_record 1 2000 20 20 20 20).prn ∧
      find_duplicate (read_RINEX_NAV init_store (sat1_records.take 20))
        (row (mk_record 1 2000 20 20 20 20).prn)
        (align_week (mk_record 1 2000 20 20 20 20).info) = none ∧
      MAX_EPHMS ≤ (read_RINEX_NAV init_store (sat1_records.take 20)).ephm_count
        (row (mk_record 1 2000 20 20 20 20).prn)) ∧
    ((ingest_record (read_RINEX_NAV init_store (sat1_records.take 20))
        (mk_record 1 2000 20 20 20 20)).1.ephm_count
      = (read_RINEX_NAV init_store (sat1_records.take 20)).ephm_count ∧
    (ingest_record (read_RINEX_NAV init_store (sat1_records.take 20))
        (mk_record 1 2000 20 20 20 20)).1.ephm_buf
      = (read_RINEX_NAV init_store (sat1_records.take 20)).ephm_buf) :=
  ⟨capacity_bound.1 sat1_records 20 0,
    ⟨by decide, by decide!, by decide!⟩,
    capacity_bound.2 (read_RINEX_NAV init_store (sat1_records.take 20))
      (mk_record 1 2000 20 20 20 20) (by decide) (by decide!) (by decide!)⟩

/-- C10, as stated, fails: in `sat1_records ++ [q]`, with `q` a record of
satellite 2, the twenty-first record is the one rejected for capacity; reading
the whole sequence leaves satellite 2 without any set, while reading it with
the rejected record removed stores `q`, so the two final stores differ. -/
theorem capacity_rejection_drops_later_records :
    (ingest_record (read_RINEX_NAV init_store (sat1_records.take 20))
        (mk_record 1 2000 20 20 20 20)).2 = Flow.stop ∧
    (read_RINEX_NAV init_store (sat1_records ++ [mk_record 2 2000 0 0 0 0])).ephm_count 1 = 0 ∧
    (read_RINEX_NAV init_store
        (sat1_records.take 20 ++ [mk_record 2 2000 0 0 0 0])).ephm_count 1 = 1 ∧
    read_RINEX_NAV init_store (sat1_records ++ [mk_record 2 2000 0 0 0 0])
      ≠ read_RINEX_NAV init_store (sat1_records.take 20 ++ [mk_record 2 2000 0 0 0 0]) := by
  refine ⟨by decide!, by decide!, by decide!, fun h => ?_⟩
  have hc := congrArg (fun t : Store => t.ephm_count 1) h
  revert hc
  decide!

/-- C10, amended: when the records `pre` are read without a capacity rejection
and the next record `r` matches no stored duplicate while its satellite's
count has reached `MAX_EPHMS`, the loop ends at `r`: whatever records `post`
follow, the final store is the store after `pre` with only the process week
changed to the week of `r`. -/
theorem capacity_rejection_ends_reading (s : Store) (pre post : List Record) (r : Record)
    (hpre : (read_records s pre).2 = Flow.next)
    (hprn : 1 ≤ r.prn)
    (hnew : find_duplicate (read_records s pre).1 (row r.prn) (align_week r.info) = none)
    (hfull : MAX_EPHMS ≤ (read_records s pre).1.ephm_count (row r.prn)) :
    read_records s (pre ++ r :: post)
      = ({ (read_records s pre).1 with current_week := (align_week r.info).week }, Flow.stop) := by
  apply read_records_append_stop pre s (read_records s pre).1
  · rw [← hpre]
  · exact ingest_record_full _ r hprn hnew hfull

/-- Witness of C10, amended: the first twenty records of `sat1_records` are read
without rejection, the twenty-first is rejected, and the record of satellite 2
after it is never read. -/
theorem capacity_rejection_ends_reading_witness :
    ((read_records init_store (sat1_records.take 20)).2 = Flow.next ∧
      (1 : Int) ≤ (mk_record 1 2000 20 20 20 20).prn ∧
      find_duplicate (read_records init_store (sat1_records.take 20)).1
        (row (mk_record 1 2000 20 20 20 20).prn)
        (align_week (mk_record 1 2000 20 20 20 20).info) = none ∧
      MAX_EPHMS ≤ (read_records init_store (sat1_records.take 20)).1.ephm_count
        (row (mk_record 1 2000 20 20 20 20).prn)) ∧
    read_records init_store
        (sat1_records.take 20 ++ mk_record 1 2000 20 20 20 20 :: [mk_record 2 2000 0 0 0 0])
      = ({ (read_records init_store (sat1_records.take 20)).1 with
            current_week := (align_week (mk_record 1 2000 20 20 20 20).info).week }, Flow.stop) :=
  ⟨⟨by decide!, by decide, by decide!, by decide!⟩,
    capacity_rejection_ends_reading init_store (sat1_records.take 20)
      [mk_record 2 2000 0 0 0 0] (mk_record 1 2000 20 20 20 20)
      (by decide!) (by decide) (by decide!) (by decide!)⟩

/-! ## Lemmas on arrays and searches -/

theorem Arr2.get_set_row {α : Type} {c : Nat} (x : Arr2 α c) (p j k : Nat) (v : α) :
    (x.set p j v).get p k = if k = j then v else x.get p k := by
  unfold Arr2.get Arr2.set
  simp only [Nat.add_left_cancel_iff]

theorem get_set_other_row (x : Arr2 ephm_info MAX_EPHMS) (p q j k : Nat) (v : ephm_info)
    (hq : q ≠ p) (hj : j < MAX_EPHMS) (hk : k < MAX_EPHMS) :
    (x.set p j v).get q k = x.get q k := by
  unfold Arr2.get Arr2.set
  unfold MAX_EPHMS at hj hk ⊢
  dsimp only
  rw [if_neg]
  omega

theorem find_range (P : Nat → Bool) (n : Nat) :
    match (List.range n).find? P with
    | some i => i < n ∧ P i = true ∧ ∀ j, j < i → P j = false
    | none => ∀ j, j < n → P j = false := by
  induction n with
  | zero => simp
  | succ n ih =>
    rw [List.range_succ, List.find?_append]
    cases h : (List.range n).find? P with
    | some i =>
      rw [h] at ih
      simp only [Option.or_some]
      exact ⟨by omega, ih.2.1, ih.2.2⟩
    | none =>
      rw [h] at ih
      simp only [Option.none_or]
      by_cases hn : P n = true
      · have hf : List.find? P [n] = some n := by simp [List.find?_cons, hn]
        rw [hf]
        exact ⟨by omega, hn, ih⟩
      · simp only [Bool.not_eq_true] at hn
        have hf : List.find? P [n] = none := by simp [List.find?_cons, hn]
        rw [hf]
        intro j hj
        by_cases hjn : j = n
        · subst hjn; exact hn
        · exact ih j (by omega)

theorem foldr_shift_get (buf : Arr2 ephm_info MAX_EPHMS) (p : Nat) :
    ∀ (n a j : Nat),
      ((List.range' a n).foldr (fun j b => b.set p j (b.get p (j - 1))) buf).get p j
        = if a ≤ j ∧ j < a + n then buf.get p (j - 1) else buf.get p j := by
  intro n
  induction n with
  | zero =>
    intro a j
    rw [if_neg (by omega)]
    rfl
  | succ n ih =>
    intro a j
    rw [List.range'_succ, List.foldr_cons, Arr2.get_set_row]
    by_cases hj : j = a
    · subst hj
      rw [if_pos rfl, ih, if_neg (by omega), if_pos (by omega)]
    · rw [if_neg hj, ih]
      by_cases h1 : a + 1 ≤ j ∧ j < a + 1 + n
      · rw [if_pos h1, if_pos (by omega)]
      · rw [if_neg h1, if_neg (by omega)]

theorem foldr_shift_get_other (buf : Arr2 ephm_info MAX_EPHMS) (p q k : Nat) (hq : q ≠ p)
    (hk : k < MAX_EPHMS) :
    ∀ (n a : Nat), a + n ≤ MAX_EPHMS →
      ((List.range' a n).foldr (fun j b => b.set p j (b.get p (j - 1))) buf).get q k
        = buf.get q k := by
  intro n
  induction n with
  | zero => intro a _; simp
  | succ n ih =>
    intro a ha
    rw [List.range'_succ, List.foldr_cons, get_set_other_row _ p q a k _ hq (by omega) hk]
    exact ih (a + 1) (by omega)

theorem shift_up_eq (buf : Arr2 ephm_info MAX_EPHMS) (p count i : Nat) :
    shift_up buf p count i
      = (List.range' (i + 1) (count - i)).foldr (fun j b => b.set p j (b.get p (j - 1))) buf := by
  unfold shift_up downFrom
  rw [List.foldl_reverse]
  have h : count + 1 - (i + 1) = count - i := by omega
  rw [h]

theorem shift_up_get (buf : Arr2 ephm_info MAX_EPHMS) (p count i j : Nat) (hi : i ≤ count) :
    (shift_up buf p count i).get p j
      = if i < j ∧ j ≤ count then buf.get p (j - 1) else buf.get p j := by
  rw [shift_up_eq, foldr_shift_get]
  by_cases h : i < j ∧ j ≤ count
  · rw [if_pos h, if_pos (by omega)]
  · rw [if_neg h, if_neg (by omega)]

theorem shift_up_get_other (buf : Arr2 ephm_info MAX_EPHMS) (p q count i k : Nat) (hq : q ≠ p)
    (hi : i ≤ count) (hc : count < MAX_EPHMS) (hk : k < MAX_EPHMS) :
    (shift_up buf p count i).get q k = buf.get q k := by
  rw [shift_up_eq]
  exact foldr_shift_get_other buf p q k hq hk _ _ (by omega)

/-! ## Lemmas on insertion -/

theorem read_RINEX_NAV_eq (s : Store) (rs : List Record) :
    read_RINEX_NAV s rs = (read_records (entry_state s) rs).1 := rfl

theorem insert_position_spec (s : Store) (p : Nat) (info : ephm_info) :
    insert_position s p info ≤ s.ephm_count p ∧
    (∀ j, j < insert_position s p info →
      adjusted_tot info (s.ephm_buf.get p j) ≤ info.data EPHM_TOT) ∧
    (insert_position s p info < s.ephm_count p →
      info.data EPHM_TOT < adjusted_tot info (s.ephm_buf.get p (insert_position s p info))) := by
  have h := find_range (fun i => decide (info.data EPHM_TOT <
      (((s.ephm_buf.get p i).week - info.week) * SECONDS_WEEK : Int) +
        (s.ephm_buf.get p i).data EPHM_TOT)) (s.ephm_count p)
  unfold insert_position
  cases hf : (List.range (s.ephm_count p)).find? (fun i => decide (info.data EPHM_TOT <
      (((s.ephm_buf.get p i).week - info.week) * SECONDS_WEEK : Int) +
        (s.ephm_buf.get p i).data EPHM_TOT)) with
  | some i =>
    rw [hf] at h
    simp only [Option.getD_some]
    obtain ⟨h1, h2, h3⟩ := h
    refine ⟨by omega, ?_, ?_⟩
    · intro j hj
      have := h3 j hj
      simp only [decide_eq_false_iff_not, not_lt] at this
      exact this
    · intro _
      exact of_decide_eq_true h2
  | none =>
    rw [hf] at h
    simp only [Option.getD_none]
    refine ⟨le_refl _, ?_, ?_⟩
    · intro j hj
      have := h j hj
      simp only [decide_eq_false_iff_not, not_lt] at this
      exact this
    · intro hlt
      exact absurd hlt (lt_irrefl _)

theorem ingest_record_insert (s : Store) (r : Record) (hprn : 1 ≤ r.prn)
    (hnew : find_duplicate s (row r.prn) (align_week r.info) = none)
    (hroom : s.ephm_count (row r.prn) < MAX_EPHMS) :
    ingest_record s r =
      ({ s with
          current_week := (align_week r.info).week
          ephm_buf := (shift_up s.ephm_buf (row r.prn) (s.ephm_count (row r.prn))
            (insert_position s (row r.prn) (align_week r.info))).set (row r.prn)
            (insert_position s (row r.prn) (align_week r.info)) (align_week r.info)
          ephm_count := Function.update s.ephm_count (row r.prn)
            (s.ephm_count (row r.prn) + 1) }, Flow.next) := by
  have hd : find_duplicate { s with current_week := (align_week r.info).week } (row r.prn)
      (align_week r.info) = none := hnew
  unfold ingest_record
  rw [if_neg (by omega)]
  dsimp only
  rw [hd]
  dsimp only
  rw [if_neg (by omega)]
  rfl

theorem adjusted_tot_eq (info e : ephm_info) :
    adjusted_tot info e = abs_tot e - ((info.week * SECONDS_WEEK : Int) : ℚ) := by
  unfold adjusted_tot abs_tot
  push_cast
  ring

theorem insert_get (buf : Arr2 ephm_info MAX_EPHMS) (p c i j : Nat) (info : ephm_info)
    (hi : i ≤ c) :
    ((shift_up buf p c i).set p i info).get p j
      = if j = i then info else if i < j ∧ j ≤ c then buf.get p (j - 1) else buf.get p j := by
  rw [Arr2.get_set_row, shift_up_get buf p c i j hi]

theorem insert_get_other (buf : Arr2 ephm_info MAX_EPHMS) (p q c i k : Nat) (info : ephm_info)
    (hq : q ≠ p) (hi : i ≤ c) (hc : c < MAX_EPHMS) (hk : k < MAX_EPHMS) :
    ((shift_up buf p c i).set p i info).get q k = buf.get q k := by
  rw [get_set_other_row _ p q i k info hq (by omega) hk,
    shift_up_get_other buf p q c i k hq hi hc hk]

theorem insert_sorted (s : Store) (p : Nat) (info : ephm_info) (hsorted : sorted_row s p) :
    ∀ j, j + 1 < s.ephm_count p + 1 →
      abs_tot (((shift_up s.ephm_buf p (s.ephm_count p) (insert_position s p info)).set p
          (insert_position s p info) info).get p j)
        ≤ abs_tot (((shift_up s.ephm_buf p (s.ephm_count p) (insert_position s p info)).set p
          (insert_position s p info) info).get p (j + 1)) := by
  intro j hj
  obtain ⟨h1, h2, h3⟩ := insert_position_spec s p info
  rw [insert_get _ _ _ _ j _ h1, insert_get _ _ _ _ (j + 1) _ h1]
  rcases lt_trichotomy (j + 1) (insert_position s p info) with hlt | heq | hgt
  · rw [if_neg (by omega), if_neg (by omega), if_neg (by omega), if_neg (by omega)]
    exact hsorted j (by omega)
  · rw [if_neg (by omega), if_neg (by omega), if_pos heq]
    have := h2 j (by omega)
    rw [adjusted_tot_eq] at this
    unfold abs_tot at this ⊢
    linarith
  · by_cases hji : j = insert_position s p info
    · rw [if_pos hji, if_neg (by omega), if_pos (by omega)]
      have := h3 (by omega)
      rw [adjusted_tot_eq] at this
      have hidx : j + 1 - 1 = insert_position s p info := by omega
      rw [hidx]
      unfold abs_tot at this ⊢
      linarith
    · rw [if_neg hji, if_pos (by omega), if_neg (by omega), if_pos (by omega)]
      have := hsorted (j - 1) (by omega)
      have hidx : j - 1 + 1 = j := by omega
      rw [hidx] at this
      have hidx2 : j + 1 - 1 = j := by omega
      rw [hidx2]
      exact this

theorem ingest_record_sorted (s : Store) (r : Record)
    (hcount : ∀ q, s.ephm_count q ≤ MAX_EPHMS) (hsorted : ∀ q, sorted_row s q)
    (hrep : replaces s r = false) :
    ∀ q, sorted_row (ingest_record s r).1 q := by
  intro q
  by_cases hprn : r.prn < 1
  · unfold ingest_record
    rw [if_pos hprn]
    exact hsorted q
  · have hprn1 : 1 ≤ r.prn := by omega
    cases hd : find_duplicate s (row r.prn) (align_week r.info) with
    | some i =>
      have hd1 : find_duplicate { s with current_week := (align_week r.info).week } (row r.prn)
          (align_week r.info) = some i := hd
      unfold replaces at hrep
      rw [hd] at hrep
      simp only [hprn1, decide_True, Bool.true_and, decide_eq_false_iff_not] at hrep
      unfold ingest_record
      rw [if_neg hprn]
      dsimp only
      rw [hd1]
      dsimp only
      rw [if_neg hrep]
      exact hsorted q
    | none =>
      by_cases hfull : MAX_EPHMS ≤ s.ephm_count (row r.prn)
      · rw [ingest_record_full s r hprn1 hd hfull]
        exact hsorted q
      · have hroom : s.ephm_count (row r.prn) < MAX_EPHMS := by omega
        rw [ingest_record_insert s r hprn1 hd hroom]
        obtain ⟨h1, _, _⟩ := insert_position_spec s (row r.prn) (align_week r.info)
        by_cases hq : q = row r.prn
        · subst hq
          intro j hj
          dsimp only at hj ⊢
          rw [Function.update_same] at hj
          exact insert_sorted s (row r.prn) (align_week r.info) (hsorted _) j hj
        · intro j hj
          dsimp only at hj ⊢
          rw [Function.update_noteq hq] at hj
          have hcq := hcount q
          rw [insert_get_other _ _ q _ _ j _ hq h1 hroom (by omega),
            insert_get_other _ _ q _ _ (j + 1) _ hq h1 hroom (by omega)]
          exact hsorted q j hj

theorem read_records_sorted (rs : List Record) :
    ∀ s : Store, (∀ q, s.ephm_count q ≤ MAX_EPHMS) → (∀ q, sorted_row s q) →
      never_replaces s rs = true → ∀ q, sorted_row (read_records s rs).1 q := by
  induction rs with
  | nil => intro s _ hs _ q; exact hs q
  | cons r rs ih =>
    intro s hc hs hn q
    unfold never_replaces at hn
    simp only [Bool.and_eq_true, Bool.not_eq_true'] at hn
    have hc1 := ingest_record_count_le s r hc
    have hs1 := ingest_record_sorted s r hc hs hn.1
    unfold read_records
    cases hr : ingest_record s r with
    | mk s1 fl =>
      rw [hr] at hc1 hs1
      have hn2 := hn.2
      rw [hr] at hn2
      cases fl with
      | next => exact ih s1 hc1 hs1 hn2 q
      | stop => exact hs1 q

/-! ## Lemmas on the clock and orbit model -/

theorem get_ephemeris_usable (s : Store) (prn : Int) (para : Nat) (h : usable s prn) :
    get_ephemeris s prn para = .ok ((selected s prn).data para) := by
  unfold get_ephemeris
  rw [if_neg h]
  rfl

theorem rotation_keeps_radius {K : Type} [Field K] (rk cu su cO sO ci si : K)
    (hu : su ^ 2 + cu ^ 2 = 1) (hO : sO ^ 2 + cO ^ 2 = 1) (hi : si ^ 2 + ci ^ 2 = 1) :
    (rk * cu * cO - rk * su * ci * sO) ^ 2 + (rk * cu * sO + rk * su * ci * cO) ^ 2
      + (rk * su * si) ^ 2 = rk ^ 2 := by
  linear_combination ((rk * cu) ^ 2 + (rk * su) ^ 2 * ci ^ 2) * hO + (rk * su) ^ 2 * hi
    + rk ^ 2 * hu

theorem orbit_radius {K : Type} [Field K] (F : MathFns K)
    (hF : ∀ x, F.sin x ^ 2 + F.cos x ^ 2 = 1) (g : Nat → K) (week sec : K) :
    (orbit F g week sec).pos.x ^ 2 + (orbit F g week sec).pos.y ^ 2
      + (orbit F g week sec).pos.z ^ 2 = (orbit F g week sec).rk ^ 2 :=
  rotation_keeps_radius _ _ _ _ _ _ _ (hF _) (hF _) (hF _)

/-! ## The properties, continued -/

/-- C11, as stated, fails: from the empty store, two records of satellite 1 in
week 2000 (IODC 1 at second 100, IODC 2 at second 200) and then a record of
week 2001 with IODC 1 and second 50 leave two sets, the one at index 0 being
the week-2001 record written over the first set: its absolute transmission
time is later than that of index 1, so the row is not in order. -/
theorem order_broken_by_replacement :
    (read_RINEX_NAV init_store [mk_record 1 2000 100 1 1 100, mk_record 1 2000 200 2 2 200,
        mk_record 1 2001 50 1 1 50]).ephm_count 0 = 2 ∧
    ¬ sorted_row (read_RINEX_NAV init_store [mk_record 1 2000 100 1 1 100,
        mk_record 1 2000 200 2 2 200, mk_record 1 2001 50 1 1 50]) 0 := by
  refine ⟨by decide!, fun h => ?_⟩
  have h0 := h 0 (by decide!)
  revert h0
  decide!

/-- C11, amended: from a store whose rows are in non-decreasing order of
absolute transmission time (counts at most `MAX_EPHMS`), among them the
empty store, reading any records none of which overwrites a stored duplicate
leaves every row in that order. -/
theorem order_kept_without_replacement (s : Store) (rs : List Record)
    (hcount : ∀ q, s.ephm_count q ≤ MAX_EPHMS) (hsorted : ∀ q, sorted_row s q)
    (hnever : never_replaces s rs = true) (q : Nat) :
    sorted_row (read_records s rs).1 q :=
  read_records_sorted rs s hcount hsorted hnever q

/-- Witness of C11, amended: three records read from the empty store, the
second transmitted before the first, none overwriting a duplicate. -/
theorem order_kept_without_replacement_witness :
    ((∀ q, (entry_state init_store).ephm_count q ≤ MAX_EPHMS) ∧
      (∀ q, sorted_row (entry_state init_store) q) ∧
      never_replaces (entry_state init_store) [mk_record 1 2000 100 1 1 100,
        mk_record 1 2000 50 2 2 50, mk_record 2 2000 70 1 1 70] = true) ∧
    sorted_row (read_RINEX_NAV init_store [mk_record 1 2000 100 1 1 100,
        mk_record 1 2000 50 2 2 50, mk_record 2 2000 70 1 1 70]) 0 :=
  ⟨⟨fun _ => Nat.zero_le _, fun _ _ hj => absurd hj (Nat.not_lt_zero _), by decide!⟩,
    order_kept_without_replacement (entry_state init_store) [mk_record 1 2000 100 1 1 100,
        mk_record 1 2000 50 2 2 50, mk_record 2 2000 70 1 1 70]
      (fun _ => Nat.zero_le _) (fun _ _ hj => absurd hj (Nat.not_lt_zero _)) (by decide!) 0⟩

/-- C12: a record whose calendar week is 2001 and whose WEEK field is 2000,
with `toc = 100`, `toe = 7200`, `tot = 50`, is stored with week 2000 and
`toe = 7200 + 604800`, but with `toc = 100` and `tot = 50`: of the three time
fields only `toe` receives the offset `(2001 - 2000) * 604800`, and `toc`,
which was counted from the calendar week, is left as it was. -/
theorem week_alignment_shifts_toe_only :
    (((read_RINEX_NAV init_store [mk_record_full 1 2001 2000 100 7200 1 50]).ephm_buf.get 0 0).week,
      ((read_RINEX_NAV init_store [mk_record_full 1 2001 2000 100 7200 1 50]).ephm_buf.get 0 0).data
        EPHM_TOC,
      ((read_RINEX_NAV init_store [mk_record_full 1 2001 2000 100 7200 1 50]).ephm_buf.get 0 0).data
        EPHM_TOE,
      ((read_RINEX_NAV init_store [mk_record_full 1 2001 2000 100 7200 1 50]).ephm_buf.get 0 0).data
        EPHM_TOT)
      = (2000, 100, 612000, 50) := by
  decide!

/-- C13: when the guard of `get_ephemeris` lets the satellite through,
`satellite_clock` returns `af0 + af1*tk + af2*tk^2 - tgd` with
`tk = (wt.week - WEEK)*604800 + (wt.sec - toc)`, every parameter being that of
the selected set; nothing else is added. -/
theorem satellite_clock_formula (s : Store) (prn : Int) (wt : wtime) (h : usable s prn) :
    satellite_clock s prn wt = .ok
      ((selected s prn).data EPHM_AFO
        + (selected s prn).data EPHM_AF1
          * (((wt.week : ℚ) - (selected s prn).data EPHM_WEEK) * 604800
              + (wt.sec - (selected s prn).data EPHM_TOC))
        + (selected s prn).data EPHM_AF2
          * (((wt.week : ℚ) - (selected s prn).data EPHM_WEEK) * 604800
              + (wt.sec - (selected s prn).data EPHM_TOC)) ^ 2
        - (selected s prn).data EPHM_TGD) := by
  unfold satellite_clock
  simp only [get_ephemeris_usable s prn _ h, bind, Except.bind, pure, Except.pure]
  congr 1
  unfold SECONDS_WEEK
  push_cast
  ring

/-- Witness of C13: one record read for satellite 1, whose current index is 0. -/
theorem satellite_clock_formula_witness :
    usable (read_RINEX_NAV init_store [mk_record 1 2000 100 5 5 100]) 1 ∧
    satellite_clock (read_RINEX_NAV init_store [mk_record 1 2000 100 5 5 100]) 1 ⟨2000, 200⟩
      = .ok
      ((selected (read_RINEX_NAV init_store [mk_record 1 2000 100 5 5 100]) 1).data EPHM_AFO
        + (selected (read_RINEX_NAV init_store [mk_record 1 2000 100 5 5 100]) 1).data EPHM_AF1
          * ((((⟨2000, 200⟩ : wtime).week : ℚ)
                - (selected (read_RINEX_NAV init_store [mk_record 1 2000 100 5 5 100]) 1).data
                  EPHM_WEEK) * 604800
              + ((⟨2000, 200⟩ : wtime).sec
                - (selected (read_RINEX_NAV init_store [mk_record 1 2000 100 5 5 100]) 1).data
                  EPHM_TOC))
        + (selected (read_RINEX_NAV init_store [mk_record 1 2000 100 5 5 100]) 1).data EPHM_AF2
          * ((((⟨2000, 200⟩ : wtime).week : ℚ)
                - (selected (read_RINEX_NAV init_store [mk_record 1 2000 100 5 5 100]) 1).data
                  EPHM_WEEK) * 604800
              + ((⟨2000, 200⟩ : wtime).sec
                - (selected (read_RINEX_NAV init_store [mk_record 1 2000 100 5 5 100]) 1).data
                  EPHM_TOC)) ^ 2
        - (selected (read_RINEX_NAV init_store [mk_record 1 2000 100 5 5 100]) 1).data EPHM_TGD) :=
  ⟨by decide!, satellite_clock_formula _ 1 ⟨2000, 200⟩ (by decide!)⟩

/-- C14: with the real square root and a selected set whose `EPHM_sqrtA` field
is 5184 (so `a = 5184^2`) and `delta_n = 0`, `satellite_position` uses the
mean motion `sqrt(MU) / 72^3`, while `sqrt(MU / a^3) + delta_n` is
`sqrt(MU) / 5184^3`: the function takes the square root of the stored field,
which is the square root of the axis already. -/
theorem mean_motion_double_sqrt (sin cos : ℝ → ℝ) (atan2 : ℝ → ℝ → ℝ) (week sec : ℝ) :
    (orbit ⟨Real.sqrt, sin, cos, atan2⟩ (fun para => if para = EPHM_sqrtA then 5184 else 0)
        week sec).n = Real.sqrt ((MUe : ℚ) : ℝ) / 72 ^ 3 ∧
    Real.sqrt (((MUe : ℚ) : ℝ) / ((5184 : ℝ) ^ 2) ^ 3) + 0 = Real.sqrt ((MUe : ℚ) : ℝ) / 5184 ^ 3 ∧
    (orbit ⟨Real.sqrt, sin, cos, atan2⟩ (fun para => if para = EPHM_sqrtA then 5184 else 0)
        week sec).n ≠ Real.sqrt (((MUe : ℚ) : ℝ) / ((5184 : ℝ) ^ 2) ^ 3) + 0 := by
  have h72 : Real.sqrt (5184 : ℝ) = 72 := by
    rw [show (5184 : ℝ) = 72 ^ 2 by norm_num]
    exact Real.sqrt_sq (by norm_num)
  have hMU : (0 : ℝ) < ((MUe : ℚ) : ℝ) := by
    unfold MUe
    norm_num
  have hpos : 0 < Real.sqrt ((MUe : ℚ) : ℝ) := Real.sqrt_pos.mpr hMU
  have hn : (orbit ⟨Real.sqrt, sin, cos, atan2⟩
      (fun para => if para = EPHM_sqrtA then (5184 : ℝ) else 0) week sec).n
      = Real.sqrt ((MUe : ℚ) : ℝ) / 72 ^ 3 := by
    show mean_motion Real.sqrt
      ((fun para => if para = EPHM_sqrtA then (5184 : ℝ) else 0) EPHM_sqrtA)
      ((fun para => if para = EPHM_sqrtA then (5184 : ℝ) else 0) EPHM_d_n) = _
    unfold mean_motion
    simp only [if_pos, if_neg (show ¬ EPHM_d_n = EPHM_sqrtA by decide), h72]
    rw [add_zero, div_div, div_div]
    norm_num
  have hclaim : Real.sqrt (((MUe : ℚ) : ℝ) / ((5184 : ℝ) ^ 2) ^ 3) + 0
      = Real.sqrt ((MUe : ℚ) : ℝ) / 5184 ^ 3 := by
    rw [add_zero, Real.sqrt_div (le_of_lt hMU),
      show ((5184 : ℝ) ^ 2) ^ 3 = (5184 ^ 3) ^ 2 by ring, Real.sqrt_sq (by positivity)]
  refine ⟨hn, hclaim, ?_⟩
  rw [hn, hclaim]
  intro h
  rw [div_eq_div_iff (by norm_num) (by norm_num)] at h
  have := mul_left_cancel₀ (ne_of_gt hpos) h
  norm_num at this

/-- C15: on `M = [[1, 0], [0, 2]]` with `m = 2`, neither application of
`inverse_matrix` reports a singular matrix, and the second one leaves
`[[1, 0], [0, 1]]`, whose entry `(1, 1)` is 1 while that of `M` is 2. -/
theorem inverse_matrix_twice_diag12 :
    ((inverse_matrix diag12 2).bind (fun R => inverse_matrix R 2)).map
        (fun R => (R.get 0 0, R.get 0 1, R.get 1 0, R.get 1 1))
      = .ok (1, 0, 0, 1) ∧
    diag12.get 1 1 = 2 := by
  decide!

/-- C16: satellite 1 holds one set, of week 2000 with IODC 1; a record of week
2001 with IODC 1 matches no stored set in both week and IODC, yet it is not
stored: the count stays 1 and the only stored set is still the one of week
2000. -/
theorem other_week_record_dropped :
    (read_RINEX_NAV init_store [mk_record 1 2000 100 1 1 100]).ephm_count 0 = 1 ∧
    ((read_RINEX_NAV init_store [mk_record 1 2000 100 1 1 100]).ephm_buf.get 0 0).week = 2000 ∧
    (ingest_record (read_RINEX_NAV init_store [mk_record 1 2000 100 1 1 100])
        (mk_record 1 2001 200 1 1 200)).1.ephm_count 0 = 1 ∧
    ((ingest_record (read_RINEX_NAV init_store [mk_record 1 2000 100 1 1 100])
        (mk_record 1 2001 200 1 1 200)).1.ephm_buf.get 0 0).week = 2000 := by
  decide!

/-- C17, as stated, fails: satellite 1 holds one set with `tot = 100` (IODC 1);
a record of the same week with `tot = 100` and IODC 2 is inserted at index 1,
behind the stored set, although index 0 is the first index whose set has
`tot >= 100`. -/
theorem equal_tot_inserted_behind :
    (ingest_record (read_RINEX_NAV init_store [mk_record 1 2000 100 1 1 100])
        (mk_record 1 2000 100 2 2 100)).1.ephm_count 0 = 2 ∧
    ((ingest_record (read_RINEX_NAV init_store [mk_record 1 2000 100 1 1 100])
        (mk_record 1 2000 100 2 2 100)).1.ephm_buf.get 0 0).data EPHM_IODC = 1 ∧
    ((ingest_record (read_RINEX_NAV init_store [mk_record 1 2000 100 1 1 100])
        (mk_record 1 2000 100 2 2 100)).1.ephm_buf.get 0 1).data EPHM_IODC = 2 := by
  decide!

/-- C17, amended: when a record is inserted as a new entry (satellite number at
least 1, no duplicate found, room left), it lands at the first index `i` whose
stored set has a week-adjusted `tot` strictly greater than the record's `tot`,
or at index `count` when there is none; the sets below `i` keep index and
content, and the sets formerly at `i..count-1` each move up by one index. -/
theorem insertion_position (s : Store) (r : Record) (hprn : 1 ≤ r.prn)
    (hnew : find_duplicate s (row r.prn) (align_week r.info) = none)
    (hroom : s.ephm_count (row r.prn) < MAX_EPHMS) :
    insert_position s (row r.prn) (align_week r.info) ≤ s.ephm_count (row r.prn) ∧
    (∀ j, j < insert_position s (row r.prn) (align_week r.info) →
      adjusted_tot (align_week r.info) (s.ephm_buf.get (row r.prn) j)
        ≤ (align_week r.info).data EPHM_TOT) ∧
    (insert_position s (row r.prn) (align_week r.info) < s.ephm_count (row r.prn) →
      (align_week r.info).data EPHM_TOT
        < adjusted_tot (align_week r.info)
            (s.ephm_buf.get (row r.prn) (insert_position s (row r.prn) (align_week r.info)))) ∧
    (ingest_record s r).1.ephm_count (row r.prn) = s.ephm_count (row r.prn) + 1 ∧
    (ingest_record s r).1.ephm_buf.get (row r.prn)
        (insert_position s (row r.prn) (align_week r.info)) = align_week r.info ∧
    (∀ j, j < insert_position s (row r.prn) (align_week r.info) →
      (ingest_record s r).1.ephm_buf.get (row r.prn) j = s.ephm_buf.get (row r.prn) j) ∧
    (∀ j, insert_position s (row r.prn) (align_week r.info) ≤ j → j < s.ephm_count (row r.prn) →
      (ingest_record s r).1.ephm_buf.get (row r.prn) (j + 1) = s.ephm_buf.get (row r.prn) j) := by
  obtain ⟨h1, h2, h3⟩ := insert_position_spec s (row r.prn) (align_week r.info)
  rw [ingest_record_insert s r hprn hnew hroom]
  dsimp only
  refine ⟨h1, h2, h3, ?_, ?_, ?_, ?_⟩
  · rw [Function.update_same]
  · rw [insert_get _ _ _ _ _ _ h1, if_pos rfl]
  · intro j hj
    rw [insert_get _ _ _ _ _ _ h1, if_neg (by omega), if_neg (by omega)]
  · intro j hj1 hj2
    rw [insert_get _ _ _ _ _ _ h1, if_neg (by omega), if_pos (by omega)]
    rfl

/-- Witness of C17, amended: the record with `tot = 100` and IODC 2 inserted
into the store that holds one set with `tot = 100`. -/
theorem insertion_position_witness :
    ((1 : Int) ≤ (mk_record 1 2000 100 2 2 100).prn ∧
      find_duplicate (read_RINEX_NAV init_store [mk_record 1 2000 100 1 1 100])
        (row (mk_record 1 2000 100 2 2 100).prn)
        (align_week (mk_record 1 2000 100 2 2 100).info) = none ∧
      (read_RINEX_NAV init_store [mk_record 1 2000 100 1 1 100]).ephm_count
        (row (mk_record 1 2000 100 2 2 100).prn) < MAX_EPHMS) ∧
    (ingest_record (read_RINEX_NAV init_store [mk_record 1 2000 100 1 1 100])
        (mk_record 1 2000 100 2 2 100)).1.ephm_count (row (mk_record 1 2000 100 2 2 100).prn)
      = (read_RINEX_NAV init_store [mk_record 1 2000 100 1 1 100]).ephm_count
          (row (mk_record 1 2000 100 2 2 100).prn) + 1 :=
  ⟨⟨by decide, by decide!, by decide!⟩,
    (insertion_position (read_RINEX_NAV init_store [mk_record 1 2000 100 1 1 100])
      (mk_record 1 2000 100 2 2 100) (by decide) (by decide!) (by decide!)).2.2.2.1⟩

/-- C18: after one record of week 2000 for satellite 1, `set_ephemeris` at
second 0 without a wanted IODE returns true for satellite 2, which holds no
set, recording index 0; and for satellite 1, which holds one set, it returns
true recording index 1: in both cases the index equals the count, the slot one
past the stored sets at which the scan starts. -/
theorem set_ephemeris_selects_past_count :
    (read_RINEX_NAV init_store [mk_record 1 2000 0 5 5 0]).ephm_count 1 = 0 ∧
    (set_ephemeris (read_RINEX_NAV init_store [mk_record 1 2000 0 5 5 0]) 2
        ⟨2000, 0⟩ (-1)).2 = true ∧
    (set_ephemeris (read_RINEX_NAV init_store [mk_record 1 2000 0 5 5 0]) 2
        ⟨2000, 0⟩ (-1)).1.current_ephm 1 = 0 ∧
    (read_RINEX_NAV init_store [mk_record 1 2000 0 5 5 0]).ephm_count 0 = 1 ∧
    (set_ephemeris (read_RINEX_NAV init_store [mk_record 1 2000 0 5 5 0]) 1
        ⟨2000, 0⟩ (-1)).2 = true ∧
    (set_ephemeris (read_RINEX_NAV init_store [mk_record 1 2000 0 5 5 0]) 1
        ⟨2000, 0⟩ (-1)).1.current_ephm 0 = 1 := by
  decide!

/-- C19: with `n = 5`, `m = 2`, rows `(1, k)` and `dr = (0, 0, 0, 0, 1)`, the
store to `a[1][0]` lands on the cell of `a[0][4]` before that cell is read, and
`dx[0]` comes out as `-2` where `cov * Gt * dr` has `1/5`; with `n = 16`,
`m = 4` the stores to `a` run past its sixteen cells. -/
theorem work_matrix_too_narrow :
    (computer_solution poly_design unit4 none (fun _ => 0) ⟨fun _ => 0⟩ 5 2).map
        (fun out => (out.1 0, cov_Gt_dr out.2 poly_design none unit4 5 2 0))
      = .ok (-2, 1 / 5) ∧
    (computer_solution poly_design unit4 none (fun _ => 0) ⟨fun _ => 0⟩ 16 4).map
        (fun out => out.1 0)
      = .error .outOfBounds := by
  decide!

/-- C20: over the reals, with the real sine and cosine (and whatever `sqrt` and
`atan2` return), whenever the guard of `get_ephemeris` lets the satellite
through, `satellite_position` returns a position with
`x^2 + y^2 + z^2 = rk^2`, `rk` being the corrected radius of the computation. -/
theorem position_radius (sqrt : ℝ → ℝ) (atan2 : ℝ → ℝ → ℝ) (s : Store) (prn : Int)
    (wt : wtime) (h : usable s prn) :
    ∃ pos : posxyz ℝ,
      satellite_position ⟨sqrt, Real.sin, Real.cos, atan2⟩ s prn wt = .ok pos ∧
      pos.x ^ 2 + pos.y ^ 2 + pos.z ^ 2
        = (orbit ⟨sqrt, Real.sin, Real.cos, atan2⟩
            (fun para => (((selected s prn).data para : ℚ) : ℝ))
            ((wt.week : ℚ) : ℝ) ((wt.sec : ℚ) : ℝ)).rk ^ 2 := by
  refine ⟨_, ?_, orbit_radius ⟨sqrt, Real.sin, Real.cos, atan2⟩ Real.sin_sq_add_cos_sq _ _ _⟩
  unfold satellite_position
  rw [get_ephemeris_usable s prn _ h]

/-- Witness of C20: one record read for satellite 1, whose current index is 0. -/
theorem position_radius_witness :
    usable (read_RINEX_NAV init_store [mk_record 1 2000 100 5 5 100]) 1 ∧
    ∃ pos : posxyz ℝ,
      satellite_position ⟨Real.sqrt, Real.sin, Real.cos, fun _ _ => 0⟩
        (read_RINEX_NAV init_store [mk_record 1 2000 100 5 5 100]) 1 ⟨2000, 200⟩ = .ok pos ∧
      pos.x ^ 2 + pos.y ^ 2 + pos.z ^ 2
        = (orbit ⟨Real.sqrt, Real.sin, Real.cos, fun _ _ => 0⟩
            (fun para => (((selected (read_RINEX_NAV init_store
              [mk_record 1 2000 100 5 5 100]) 1).data para : ℚ) : ℝ))
            (((⟨2000, 200⟩ : wtime).week : ℚ) : ℝ) (((⟨2000, 200⟩ : wtime).sec : ℚ) : ℝ)).rk ^ 2 :=
  ⟨by decide!, position_radius Real.sqrt (fun _ _ => 0) _ 1 ⟨2000, 200⟩ (by decide!)⟩

end GNSS
